import Mathlib

/-!
# DisplayC.c: LED matrix rendering and debounced buttons

A shallow embedding of `src/DisplayC.c`.

* The C globals `leds` (pixel buffer) and the PIO transmission channel are the
  two fields of `Matrix`; every value handed to `pio_sm_put_blocking` and the
  latch wait `sleep_us` are appended to `Matrix.channel` in call order.
* An access outside an array (`leds[index]`, `numbers[digit][i]`) is undefined
  behaviour in C; the embedding is total and returns `none` there.
* `uint8_t` values are naturals reduced modulo 256 where a conversion happens,
  `uint32_t` subtraction is taken modulo 2^32.
* `button_irq` receives the value of `to_ms_since_boot(get_absolute_time())`
  as an argument; `gpio_put` on the two indicator pins is recorded as the
  level of the pin.
* The OLED (`display_update`), `printf` and pin configuration are not modelled.
-/

namespace DisplayC

/-! ## Constants -/

/-- Number of pixels of the 5x5 matrix (`#define LED_COUNT 25`). -/
def LED_COUNT : Nat := 25

/-- Data pin of the matrix (`#define LED_PIN 7`). -/
def LED_PIN : Nat := 7

/-- Pin of button A (`#define BUTTON_A 5`). -/
def BUTTON_A : Nat := 5

/-- Pin of button B (`#define BUTTON_B 6`). -/
def BUTTON_B : Nat := 6

/-- Red channel of the drawing colour (`#define LED_COLOR_R 0`). -/
def LED_COLOR_R : Nat := 0

/-- Green channel of the drawing colour (`#define LED_COLOR_G 50`). -/
def LED_COLOR_G : Nat := 50

/-- Blue channel of the drawing colour (`#define LED_COLOR_B 0`). -/
def LED_COLOR_B : Nat := 0

/-! ## Data model -/

/-- One pixel, `struct pixel_t { uint8_t G, R, B; }`. -/
structure pixel_t where
  G : Nat
  R : Nat
  B : Nat
deriving DecidableEq, Repr

/-- What the LED string's channel receives. -/
inductive HwEvent where
  | pio_sm_put_blocking (data : Nat)
  | sleep_us (us : Nat)
deriving DecidableEq, Repr

/-- The globals of the matrix driver: the buffer `leds` and the record of what
was sent on the PIO state machine. -/
structure Matrix where
  leds : List pixel_t
  channel : List HwEvent
deriving DecidableEq, Repr

/-- All globals of the program, the `static` of `button_irq` and the levels
driven on the indicator pins `led_pin_g` (11) and `led_pin_b` (12). -/
structure State where
  last_char : Nat
  led_g_estado : Bool
  led_b_estado : Bool
  last_press_time : Nat
  pin_g : Bool
  pin_b : Bool
  matrix : Matrix
deriving DecidableEq, Repr

/-- The glyph table `const uint8_t numbers[10][25]`. -/
def numbers : List (List Nat) :=
  [ [1,1,1,1,1,
     1,0,0,0,1,
     1,0,0,0,1,
     1,0,0,0,1,
     1,1,1,1,1],
    [0,1,1,1,0,
     0,0,1,0,0,
     0,0,1,0,0,
     0,1,1,0,0,
     0,0,1,0,0],
    [1,1,1,1,1,
     1,0,0,0,0,
     1,1,1,1,1,
     0,0,0,0,1,
     1,1,1,1,1],
    [1,1,1,1,1,
     0,0,0,0,1,
     1,1,1,1,1,
     0,0,0,0,1,
     1,1,1,1,1],
    [1,0,0,0,0,
     0,0,0,0,1,
     1,1,1,1,1,
     1,0,0,0,1,
     1,0,0,0,1],
    [1,1,1,1,1,
     0,0,0,0,1,
     1,1,1,1,1,
     1,0,0,0,0,
     1,1,1,1,1],
    [1,1,1,1,1,
     1,0,0,0,1,
     1,1,1,1,1,
     0,0,0,0,1,
     1,1,1,1,1],
    [0,0,0,1,0,
     0,0,1,0,0,
     0,1,0,0,0,
     0,0,0,0,1,
     1,1,1,1,1],
    [1,1,1,1,1,
     1,0,0,0,1,
     1,1,1,1,1,
     1,0,0,0,1,
     1,1,1,1,1],
    [1,1,1,1,1,
     0,0,0,0,1,
     1,1,1,1,1,
     1,0,0,0,1,
     1,1,1,1,1] ]

/-- The read `numbers[digit][i]` with `int digit`: `none` when the row or the
cell is outside the table. -/
def numbers_at (digit : Int) (i : Nat) : Option Nat :=
  if 0 ≤ digit then
    match numbers[digit.toNat]? with
    | some row => row[i]?
    | none => none
  else none

/-! ## Control flow -/

/-- The loop `for (i = start; i < start + n; i++) body(i)`, with `n` iterations
left; it stops with `none` as soon as one iteration does. -/
def for_loop {σ : Type} (body : Nat → σ → Option σ) : Nat → Nat → σ → Option σ
  | 0, _, s => some s
  | n + 1, i, s =>
    match body i s with
    | some s' => for_loop body n (i + 1) s'
    | none => none

/-! ## Matrix driver -/

/-- The function `np_set_led(index, r, g, b)`: stores the three channels in
`leds[index]`. -/
def np_set_led (index r g b : Nat) (m : Matrix) : Option Matrix :=
  if index < m.leds.length then
    some { m with leds := m.leds.set index { G := g % 256, R := r % 256, B := b % 256 } }
  else none

/-- The function `np_clear()`: every pixel of `0 .. LED_COUNT-1` is set to
(0,0,0). -/
def np_clear (m : Matrix) : Option Matrix :=
  for_loop (fun i m' => np_set_led i 0 0 0 m') LED_COUNT 0 m

/-- The function `np_init(pin)`: the PIO set-up leaves the buffer alone, then
`np_clear()`. -/
def np_init (_pin : Nat) (m : Matrix) : Option Matrix :=
  np_clear m

/-- One iteration of the loop of `np_write`: `leds[i].G`, `leds[i].R`,
`leds[i].B` are put on the channel in this order. -/
def np_write_body (i : Nat) (m : Matrix) : Option Matrix :=
  match m.leds[i]? with
  | some p =>
    some { m with channel := m.channel ++
      [HwEvent.pio_sm_put_blocking p.G, HwEvent.pio_sm_put_blocking p.R,
       HwEvent.pio_sm_put_blocking p.B] }
  | none => none

/-- The function `np_write()`: the loop over all pixels, then `sleep_us(100)`. -/
def np_write (m : Matrix) : Option Matrix :=
  match for_loop np_write_body LED_COUNT 0 m with
  | some m' => some { m' with channel := m'.channel ++ [HwEvent.sleep_us 100] }
  | none => none

/-- One iteration of the drawing loop of `update_led_matrix`. -/
def update_body (digit : Int) (i : Nat) (m : Matrix) : Option Matrix :=
  match numbers_at digit i with
  | some v =>
    if v ≠ 0 then np_set_led i LED_COLOR_R LED_COLOR_G LED_COLOR_B m else some m
  | none => none

/-- The function `update_led_matrix(digit)`: `np_clear()`, the drawing loop,
`np_write()`. -/
def update_led_matrix (digit : Int) (m : Matrix) : Option Matrix :=
  match np_clear m with
  | some m1 =>
    match for_loop (update_body digit) LED_COUNT 0 m1 with
    | some m2 => np_write m2
    | none => none
  | none => none

/-! ## Buttons -/

/-- Subtraction of two `uint32_t`. -/
def u32_sub (a b : Nat) : Nat :=
  (a % 4294967296 + 4294967296 - b % 4294967296) % 4294967296

/-- The interrupt callback `button_irq(gpio, events)`; `current_time` is the
value read from `to_ms_since_boot(get_absolute_time())`. -/
def button_irq (gpio _events current_time : Nat) (s : State) : State :=
  if u32_sub current_time s.last_press_time < 200 then s
  else
    let s1 := { s with last_press_time := current_time }
    if gpio = BUTTON_A then
      let s2 := { s1 with led_g_estado := !s1.led_g_estado }
      { s2 with pin_g := s2.led_g_estado }
    else if gpio = BUTTON_B then
      let s2 := { s1 with led_b_estado := !s1.led_b_estado }
      { s2 with pin_b := s2.led_b_estado }
    else s1

/-! ## Main program -/

/-- The globals as the program starts: zero-initialised buffer, both toggles
false, no key, `last_press_time = 0`, indicator pins low. -/
def initial_state : State :=
  { last_char := 0
    led_g_estado := false
    led_b_estado := false
    last_press_time := 0
    pin_g := false
    pin_b := false
    matrix := { leds := List.replicate LED_COUNT { G := 0, R := 0, B := 0 }, channel := [] } }

/-- The part of `main` before the loop that touches the matrix:
`np_init(LED_PIN); np_clear(); np_write();`. -/
def startup : Option State :=
  match np_init LED_PIN initial_state.matrix with
  | some m1 =>
    match np_clear m1 with
    | some m2 =>
      match np_write m2 with
      | some m3 => some { initial_state with matrix := m3 }
      | none => none
    | none => none
  | none => none

/-- One iteration of `while (true)` in `main`. `usb_connected` is the result of
`stdio_usb_connected()`, `rx` the byte stored by `scanf("%c", &last_char)` when
it returns 1. -/
def main_loop_iteration (usb_connected : Bool) (rx : Option Nat) (s : State) : Option State :=
  if usb_connected then
    match rx with
    | some c =>
      let s1 := { s with last_char := c }
      if 48 ≤ s1.last_char ∧ s1.last_char ≤ 57 then
        let digit : Int := (s1.last_char : Int) - 48
        match update_led_matrix digit s1.matrix with
        | some m => some { s1 with matrix := m }
        | none => none
      else some s1
    | none => some s
  else some s

/-- What can happen to the running program: the main loop makes one iteration,
or a falling edge calls `button_irq`. -/
inductive Input where
  | loop_iteration (usb_connected : Bool) (rx : Option Nat)
  | irq (gpio events current_time : Nat)
deriving DecidableEq, Repr

/-- One step of the program on an input. An interrupt may arrive in the middle
of an iteration; `button_irq` reads and writes none of the matrix globals, so
for the matrix it is as if it arrived between two iterations. -/
def step (s : State) : Input → Option State
  | Input.loop_iteration usb rx => main_loop_iteration usb rx s
  | Input.irq gpio events t => some (button_irq gpio events t s)

/-- The program on a sequence of inputs. -/
def run : List Input → State → Option State
  | [], s => some s
  | x :: xs, s =>
    match step s x with
    | some s' => run xs s'
    | none => none

/-! ## Vocabulary of the properties -/

/-- The pixel that `update_led_matrix` leaves in a cell whose glyph value is
`v`: the drawing colour when `v` is non-zero, black otherwise. -/
def cell_pixel (v : Nat) : pixel_t :=
  if v ≠ 0 then { G := LED_COLOR_G, R := LED_COLOR_R, B := LED_COLOR_B }
  else { G := 0, R := 0, B := 0 }

/-- The buffer holding the glyph of `digit`, cell by cell. -/
def glyph_leds (digit : Int) : List pixel_t :=
  (List.range LED_COUNT).map (fun i => cell_pixel ((numbers_at digit i).getD 0))

/-- The three channel values of one pixel in the order green, red, blue. -/
def grb (p : pixel_t) : List HwEvent :=
  [HwEvent.pio_sm_put_blocking p.G, HwEvent.pio_sm_put_blocking p.R,
   HwEvent.pio_sm_put_blocking p.B]

/-- What one transmission of the buffer `leds` puts on the channel: the pixels
in index order, each as green, red, blue, then the latch wait. -/
def frame_events (leds : List pixel_t) : List HwEvent :=
  leds.flatMap grb ++ [HwEvent.sleep_us 100]

/-- The buffer `leds` shows exactly the glyph of `digit`: 25 pixels, pixel `i`
is (R=0, G=50, B=0) when `numbers[digit][i]` is non-zero and (0,0,0) otherwise. -/
def shows_digit (digit : Int) (leds : List pixel_t) : Prop :=
  leds.length = 25 ∧
  ∀ i, i < 25 → ∃ v, numbers_at digit i = some v ∧
    leds[i]? = some (if v ≠ 0 then { G := 50, R := 0, B := 0 } else { G := 0, R := 0, B := 0 })

/-- A frame without residue: all 25 pixels off, or exactly one digit glyph. -/
def clean_frame (leds : List pixel_t) : Prop :=
  leds = List.replicate 25 { G := 0, R := 0, B := 0 } ∨
  ∃ digit : Int, 0 ≤ digit ∧ digit ≤ 9 ∧ shows_digit digit leds

/-- Number of changes of a toggle between two successive values. -/
def flips (before after : Bool) : Nat :=
  if before = after then 0 else 1

/-- A sample prior content: 25 white pixels, nothing sent yet. -/
def white_matrix : Matrix :=
  { leds := List.replicate 25 { G := 255, R := 255, B := 255 }, channel := [] }

/-- A sample state: the initial globals over the white buffer. -/
def white_state : State :=
  { initial_state with matrix := white_matrix }

/-- A sample of what may happen between two presses: the byte '3' is read, an
edge on button B arrives at 1100 ms, an iteration runs without USB. -/
def quiet_inputs : List Input :=
  [Input.loop_iteration true (some 51), Input.irq BUTTON_B 4 1100,
   Input.loop_iteration false none]

/-! ## Loops -/

theorem for_loop_inv {σ : Type} (body : Nat → σ → Option σ) (P : Nat → σ → Prop) :
    ∀ (n i : Nat) (s : σ), P i s →
      (∀ j t, i ≤ j → j < i + n → P j t → ∃ t', body j t = some t' ∧ P (j + 1) t') →
      ∃ s', for_loop body n i s = some s' ∧ P (i + n) s' := by
  intro n
  induction n with
  | zero => intro i s h _; exact ⟨s, rfl, by simpa using h⟩
  | succ n ih =>
    intro i s h hstep
    obtain ⟨t, ht, hP⟩ := hstep i s (Nat.le_refl i) (by omega) h
    obtain ⟨s', hs', hP'⟩ := ih (i + 1) t hP (fun j u h1 h2 hu => hstep j u (by omega) (by omega) hu)
    refine ⟨s', ?_, ?_⟩
    · simp only [for_loop, ht, hs']
    · have : i + (n + 1) = i + 1 + n := by omega
      rw [this]; exact hP'

theorem np_set_led_eq (index r g b : Nat) (m : Matrix) (h : index < m.leds.length) :
    np_set_led index r g b m
      = some { leds := m.leds.set index { G := g % 256, R := r % 256, B := b % 256 },
               channel := m.channel } := by
  simp only [np_set_led, h, if_true]

theorem np_clear_eq (m : Matrix) (h : m.leds.length = LED_COUNT) :
    np_clear m = some { leds := List.replicate LED_COUNT { G := 0, R := 0, B := 0 }, channel := m.channel } := by
  obtain ⟨m', hm', hc, hl, hz⟩ := for_loop_inv (fun i m' => np_set_led i 0 0 0 m')
    (fun j t => t.channel = m.channel ∧ t.leds.length = LED_COUNT ∧
      ∀ k, k < j → t.leds[k]? = some { G := 0, R := 0, B := 0 })
    LED_COUNT 0 m ⟨rfl, h, fun k hk => absurd hk (Nat.not_lt_zero k)⟩
    (by
      intro j t _ hj ⟨htc, htl, htz⟩
      have hj' : j < t.leds.length := by omega
      refine ⟨{ leds := t.leds.set j { G := 0 % 256, R := 0 % 256, B := 0 % 256 },
                channel := t.channel }, np_set_led_eq j 0 0 0 t hj', htc,
              by simpa using htl, ?_⟩
      intro k hk
      by_cases hkj : k = j
      · subst hkj; exact List.getElem?_set_self hj'
      · simp only [List.getElem?_set_ne (Ne.symm hkj)]; exact htz k (by omega))
  unfold np_clear
  rw [hm']
  congr 1
  cases m' with
  | mk leds channel =>
    simp only at hc hl hz
    subst hc
    congr 1
    apply List.ext_getElem?
    intro k
    by_cases hk : k < LED_COUNT
    · rw [hz k (by omega)]; simp [List.getElem?_replicate, hk]
    · rw [List.getElem?_eq_none (by omega), List.getElem?_eq_none (by simp; omega)]

theorem np_write_eq (m : Matrix) (h : m.leds.length = LED_COUNT) :
    np_write m = some { leds := m.leds,
                        channel := m.channel ++ (m.leds.flatMap grb ++ [HwEvent.sleep_us 100]) } := by
  obtain ⟨m', hm', hl, hc⟩ := for_loop_inv np_write_body
    (fun j t => t.leds = m.leds ∧ t.channel = m.channel ++ (m.leds.take j).flatMap grb)
    LED_COUNT 0 m ⟨rfl, by simp⟩
    (by
      intro j t _ hj ⟨htl, htc⟩
      have hj' : j < m.leds.length := by omega
      refine ⟨{ t with channel := t.channel ++ grb (m.leds[j]) }, ?_, htl, ?_⟩
      · simp only [np_write_body, htl, List.getElem?_eq_getElem hj', grb]
      · show t.channel ++ grb m.leds[j] = m.channel ++ (m.leds.take (j + 1)).flatMap grb
        rw [htc, List.take_succ, List.getElem?_eq_getElem hj']
        simp only [Option.toList, List.flatMap_append, List.flatMap_cons, List.flatMap_nil,
          List.append_nil, List.append_assoc])
  unfold np_write
  rw [hm']
  cases m' with
  | mk leds channel =>
    simp only at hl hc
    subst hl
    simp only [hc, Nat.zero_add, ← h, List.take_length, List.append_assoc]

theorem numbers_at_isSome (digit : Int) (h0 : 0 ≤ digit) (h1 : digit < 10) (i : Nat)
    (hi : i < LED_COUNT) : ∃ v, numbers_at digit i = some v := by
  have hi' : i < 25 := hi
  interval_cases digit <;> interval_cases i <;> exact ⟨_, rfl⟩

theorem draw_eq (digit : Int) (h0 : 0 ≤ digit) (h1 : digit < 10) (ch : List HwEvent) :
    for_loop (update_body digit) LED_COUNT 0
      { leds := List.replicate LED_COUNT { G := 0, R := 0, B := 0 }, channel := ch }
      = some { leds := glyph_leds digit, channel := ch } := by
  obtain ⟨m', hm', hc, hl, hz⟩ := for_loop_inv (update_body digit)
    (fun j t => t.channel = ch ∧ t.leds.length = LED_COUNT ∧
      ∀ k, k < LED_COUNT → t.leds[k]? = some (if k < j then
        cell_pixel ((numbers_at digit k).getD 0) else { G := 0, R := 0, B := 0 }))
    LED_COUNT 0 { leds := List.replicate LED_COUNT { G := 0, R := 0, B := 0 }, channel := ch }
    ⟨rfl, by simp, fun k hk => by simp [List.getElem?_replicate, hk]⟩
    (by
      intro j t _ hj ⟨htc, htl, htz⟩
      have hj' : j < t.leds.length := by omega
      obtain ⟨v, hv⟩ := numbers_at_isSome digit h0 h1 j (by omega)
      by_cases hv0 : v = 0
      · refine ⟨t, by simp [update_body, hv, hv0], htc, htl, ?_⟩
        intro k hk
        rw [htz k hk]
        by_cases hkj : k = j
        · subst hkj; simp [hv, hv0, cell_pixel]
        · have : (k < j + 1) = (k < j) := by apply propext; omega
          simp only [this]
      · refine ⟨{ leds := t.leds.set j { G := LED_COLOR_G % 256, R := LED_COLOR_R % 256,
                                          B := LED_COLOR_B % 256 },
                  channel := t.channel }, ?_, htc, by simpa using htl, ?_⟩
        · simp only [update_body, hv, ne_eq, hv0, not_false_eq_true, if_true]
          exact np_set_led_eq j _ _ _ t hj'
        · intro k hk
          by_cases hkj : k = j
          · subst hkj
            rw [List.getElem?_set_self hj']
            simp [hv, hv0, cell_pixel, LED_COLOR_G, LED_COLOR_R, LED_COLOR_B]
          · simp only [List.getElem?_set_ne (Ne.symm hkj)]
            rw [htz k hk]
            have : (k < j + 1) = (k < j) := by apply propext; omega
            simp only [this])
  rw [hm']
  congr 1
  cases m' with
  | mk leds channel =>
    simp only at hc hl hz
    subst hc
    congr 1
    apply List.ext_getElem?
    intro k
    by_cases hk : k < LED_COUNT
    · rw [hz k hk]
      have hk' : k < 0 + LED_COUNT := by omega
      simp [glyph_leds, List.getElem?_range, hk, hk']
    · rw [List.getElem?_eq_none (by omega), List.getElem?_eq_none (by simp [glyph_leds]; omega)]

theorem update_led_matrix_eq (digit : Int) (h0 : 0 ≤ digit) (h1 : digit < 10) (m : Matrix)
    (h : m.leds.length = LED_COUNT) :
    update_led_matrix digit m
      = some { leds := glyph_leds digit,
               channel := m.channel ++
                 ((glyph_leds digit).flatMap grb ++ [HwEvent.sleep_us 100]) } := by
  unfold update_led_matrix
  rw [np_clear_eq m h]
  simp only [draw_eq digit h0 h1]
  rw [np_write_eq _ (by simp [glyph_leds])]

/-! ## Facts about the matrix driver -/

theorem glyph_leds_length (digit : Int) : (glyph_leds digit).length = 25 := by
  simp [glyph_leds, LED_COUNT]

theorem glyph_leds_shows (digit : Int) (h0 : 0 ≤ digit) (h1 : digit ≤ 9) :
    shows_digit digit (glyph_leds digit) := by
  refine ⟨glyph_leds_length digit, ?_⟩
  intro i hi
  obtain ⟨v, hv⟩ := numbers_at_isSome digit h0 (by omega) i hi
  refine ⟨v, hv, ?_⟩
  have hi' : i < LED_COUNT := hi
  simp [glyph_leds, List.getElem?_range, hi', hv, cell_pixel, LED_COLOR_G, LED_COLOR_R,
    LED_COLOR_B]

theorem flatMap_grb_length (leds : List pixel_t) : (leds.flatMap grb).length = 3 * leds.length := by
  induction leds with
  | nil => rfl
  | cons p ps ih => simp only [List.flatMap_cons, List.length_append, ih, grb, List.length_cons,
      List.length_nil]; omega

theorem flatMap_grb_getElem (leds : List pixel_t) :
    ∀ (i : Nat) (p : pixel_t), leds[i]? = some p →
      (leds.flatMap grb)[3 * i]? = some (HwEvent.pio_sm_put_blocking p.G) ∧
      (leds.flatMap grb)[3 * i + 1]? = some (HwEvent.pio_sm_put_blocking p.R) ∧
      (leds.flatMap grb)[3 * i + 2]? = some (HwEvent.pio_sm_put_blocking p.B) := by
  induction leds with
  | nil => intro i p h; simp at h
  | cons q qs ih =>
    intro i p h
    cases i with
    | zero =>
      simp only [List.getElem?_cons_zero, Option.some.injEq] at h
      subst h
      simp [grb]
    | succ k =>
      simp only [List.getElem?_cons_succ] at h
      obtain ⟨h1, h2, h3⟩ := ih k p h
      have e1 : 3 * (k + 1) = (3 * k) + 1 + 1 + 1 := by omega
      have e3 : 3 * k + 1 + 1 + 1 + 2 = (3 * k + 2) + 1 + 1 + 1 := by omega
      rw [e1, e3]
      simp only [List.flatMap_cons, grb, List.cons_append, List.nil_append,
        List.getElem?_cons_succ]
      exact ⟨h1, h2, h3⟩

theorem update_led_matrix_none (digit : Int) (h : digit < 0 ∨ 9 < digit) (m : Matrix)
    (hlen : m.leds.length = LED_COUNT) : update_led_matrix digit m = none := by
  have hn : numbers_at digit 0 = none := by
    unfold numbers_at
    rcases h with h | h
    · simp [show ¬ (0 ≤ digit) by omega]
    · have h10 : 10 ≤ digit.toNat := by omega
      simp only [show 0 ≤ digit by omega, if_true]
      rw [List.getElem?_eq_none (by simpa [numbers] using h10)]
  unfold update_led_matrix
  rw [np_clear_eq m hlen]
  simp only [LED_COUNT, for_loop, update_body, hn]

/-! ## Facts about the buttons -/

theorem u32_sub_of_le (a b : Nat) (h : b ≤ a) (ha : a < 4294967296) : u32_sub a b = a - b := by
  unfold u32_sub
  omega

theorem button_irq_rejected (gpio events t : Nat) (s : State)
    (h : u32_sub t s.last_press_time < 200) : button_irq gpio events t s = s := by
  simp only [button_irq, h, if_true]

theorem button_irq_accepted_A (events t : Nat) (s : State)
    (h : 200 ≤ u32_sub t s.last_press_time) :
    button_irq BUTTON_A events t s
      = { s with last_press_time := t, led_g_estado := !s.led_g_estado,
                 pin_g := !s.led_g_estado } := by
  simp only [button_irq, show ¬ (u32_sub t s.last_press_time < 200) by omega, if_false, if_true]

theorem button_irq_accepted_B (events t : Nat) (s : State)
    (h : 200 ≤ u32_sub t s.last_press_time) :
    button_irq BUTTON_B events t s
      = { s with last_press_time := t, led_b_estado := !s.led_b_estado,
                 pin_b := !s.led_b_estado } := by
  simp [button_irq, show ¬ (u32_sub t s.last_press_time < 200) by omega, BUTTON_A, BUTTON_B]

theorem button_irq_accepted_time (gpio events t : Nat) (s : State)
    (h : 200 ≤ u32_sub t s.last_press_time) :
    (button_irq gpio events t s).last_press_time = t := by
  simp only [button_irq, show ¬ (u32_sub t s.last_press_time < 200) by omega, if_false]
  split_ifs <;> rfl

theorem button_irq_matrix (gpio events t : Nat) (s : State) :
    (button_irq gpio events t s).matrix = s.matrix := by
  unfold button_irq
  split_ifs <;> rfl

theorem button_irq_flipped_B (events t : Nat) (s : State) :
    (button_irq BUTTON_B events t s).led_b_estado ≠ s.led_b_estado
      ↔ 200 ≤ u32_sub t s.last_press_time := by
  by_cases h : u32_sub t s.last_press_time < 200
  · rw [button_irq_rejected _ _ _ _ h]
    constructor
    · intro hne; exact absurd rfl hne
    · intro h200; omega
  · rw [button_irq_accepted_B _ _ _ (by omega)]
    constructor
    · intro _; omega
    · intro _; cases s.led_b_estado <;> simp

theorem button_irq_A_keeps_B (events t : Nat) (s : State) :
    (button_irq BUTTON_A events t s).led_b_estado = s.led_b_estado := by
  by_cases h : u32_sub t s.last_press_time < 200
  · rw [button_irq_rejected _ _ _ _ h]
  · rw [button_irq_accepted_A _ _ _ (by omega)]

theorem flips_not (b : Bool) : flips b (!b) = 1 := by
  cases b <;> rfl

theorem flips_self (b : Bool) : flips b b = 0 := by
  cases b <;> rfl

theorem flips_le_one (a b : Bool) : flips a b ≤ 1 := by
  cases a <;> cases b <;> decide

/-! ## Facts about the main program -/

theorem startup_eq :
    startup = some { initial_state with
      matrix := { leds := List.replicate 25 { G := 0, R := 0, B := 0 },
                  channel := frame_events (List.replicate 25 { G := 0, R := 0, B := 0 }) } } := by
  unfold startup np_init
  rw [np_clear_eq _ (by simp [initial_state])]
  simp only
  rw [np_clear_eq _ (by simp)]
  simp only
  rw [np_write_eq _ (by simp)]
  simp [initial_state, frame_events, LED_COUNT]

theorem main_loop_digit (c : Nat) (h : 48 ≤ c ∧ c ≤ 57) (s : State)
    (hlen : s.matrix.leds.length = 25) :
    main_loop_iteration true (some c) s
      = some { s with
          last_char := c
          matrix := { leds := glyph_leds ((c : Int) - 48),
                      channel := s.matrix.channel ++ frame_events (glyph_leds ((c : Int) - 48)) } } := by
  simp only [main_loop_iteration, if_true, h, and_self]
  rw [update_led_matrix_eq ((c : Int) - 48) (by omega) (by omega) s.matrix hlen]
  rfl

theorem main_loop_other (c : Nat) (h : ¬ (48 ≤ c ∧ c ≤ 57)) (s : State) :
    main_loop_iteration true (some c) s = some { s with last_char := c } := by
  simp only [main_loop_iteration, if_true, h, if_false]

theorem step_keeps_clean (x : Input) (s : State) (hlen : s.matrix.leds.length = 25)
    (hclean : ∃ frames : List (List pixel_t),
      s.matrix.channel = frames.flatMap frame_events ∧ ∀ f ∈ frames, clean_frame f) :
    ∃ s', step s x = some s' ∧ s'.matrix.leds.length = 25 ∧
      ∃ frames : List (List pixel_t),
        s'.matrix.channel = frames.flatMap frame_events ∧ ∀ f ∈ frames, clean_frame f := by
  obtain ⟨frames, hch, hfr⟩ := hclean
  cases x with
  | irq gpio events t =>
    refine ⟨_, rfl, ?_, frames, ?_, hfr⟩
    · rw [button_irq_matrix]; exact hlen
    · rw [button_irq_matrix]; exact hch
  | loop_iteration usb rx =>
    cases usb with
    | false => exact ⟨s, rfl, hlen, frames, hch, hfr⟩
    | true =>
      cases rx with
      | none => exact ⟨s, rfl, hlen, frames, hch, hfr⟩
      | some c =>
        by_cases hc : 48 ≤ c ∧ c ≤ 57
        · refine ⟨_, main_loop_digit c hc s hlen, glyph_leds_length _,
            frames ++ [glyph_leds ((c : Int) - 48)], ?_, ?_⟩
          · simp only [hch, List.flatMap_append, List.flatMap_cons, List.flatMap_nil,
              List.append_nil]
          · intro f hf
            rcases List.mem_append.mp hf with hf | hf
            · exact hfr f hf
            · have hf' : f = glyph_leds ((c : Int) - 48) := by simpa using hf
              subst hf'
              exact Or.inr ⟨(c : Int) - 48, by omega, by omega,
                glyph_leds_shows _ (by omega) (by omega)⟩
        · exact ⟨_, main_loop_other c hc s, hlen, frames, hch, hfr⟩

theorem run_keeps_clean (inputs : List Input) :
    ∀ s : State, s.matrix.leds.length = 25 →
      (∃ frames : List (List pixel_t),
        s.matrix.channel = frames.flatMap frame_events ∧ ∀ f ∈ frames, clean_frame f) →
      ∃ s', run inputs s = some s' ∧ s'.matrix.leds.length = 25 ∧
        ∃ frames : List (List pixel_t),
          s'.matrix.channel = frames.flatMap frame_events ∧ ∀ f ∈ frames, clean_frame f := by
  induction inputs with
  | nil => intro s hlen hclean; exact ⟨s, rfl, hlen, hclean⟩
  | cons x xs ih =>
    intro s hlen hclean
    obtain ⟨s1, h1, hlen1, hclean1⟩ := step_keeps_clean x s hlen hclean
    obtain ⟨s2, h2, hlen2, hclean2⟩ := ih s1 hlen1 hclean1
    exact ⟨s2, by simp only [run, h1, h2], hlen2, hclean2⟩

theorem main_loop_keeps_buttons (usb_connected : Bool) (rx : Option Nat) (s : State)
    (hlen : s.matrix.leds.length = 25) :
    ∃ s', main_loop_iteration usb_connected rx s = some s' ∧ s'.matrix.leds.length = 25 ∧
      s'.led_g_estado = s.led_g_estado ∧ s'.led_b_estado = s.led_b_estado ∧
      s'.last_press_time = s.last_press_time := by
  cases usb_connected with
  | false => exact ⟨s, rfl, hlen, rfl, rfl, rfl⟩
  | true =>
    cases rx with
    | none => exact ⟨s, rfl, hlen, rfl, rfl, rfl⟩
    | some c =>
      by_cases hc : 48 ≤ c ∧ c ≤ 57
      · exact ⟨_, main_loop_digit c hc s hlen, glyph_leds_length _, rfl, rfl, rfl⟩
      · exact ⟨_, main_loop_other c hc s, hlen, rfl, rfl, rfl⟩

theorem run_without_accepted_irq (mid : List Input) (T1 : Nat) :
    (∀ gpio ev t, Input.irq gpio ev t ∈ mid → u32_sub t T1 < 200) →
    ∀ s : State, s.matrix.leds.length = 25 → s.last_press_time = T1 →
      ∃ sm, run mid s = some sm ∧ sm.matrix.leds.length = 25 ∧
        sm.led_g_estado = s.led_g_estado ∧ sm.led_b_estado = s.led_b_estado ∧
        sm.last_press_time = T1 := by
  induction mid with
  | nil => intro _ s hlen ht; exact ⟨s, rfl, hlen, rfl, rfl, ht⟩
  | cons x xs ih =>
    intro hmid s hlen ht
    have hxs : ∀ gpio ev t, Input.irq gpio ev t ∈ xs → u32_sub t T1 < 200 :=
      fun gpio ev t h => hmid gpio ev t (List.mem_cons_of_mem _ h)
    cases x with
    | irq gpio ev t =>
      have hrej : u32_sub t s.last_press_time < 200 := by
        rw [ht]; exact hmid gpio ev t (List.mem_cons_self _ _)
      obtain ⟨sm, hrun, h⟩ := ih hxs s hlen ht
      refine ⟨sm, ?_, h⟩
      simp only [run, step, button_irq_rejected gpio ev t s hrej, hrun]
    | loop_iteration usb rx =>
      obtain ⟨s1, h1, hlen1, hg1, hb1, ht1⟩ := main_loop_keeps_buttons usb rx s hlen
      obtain ⟨sm, hrun, hlenm, hgm, hbm, htm⟩ := ih hxs s1 hlen1 (by rw [ht1]; exact ht)
      refine ⟨sm, ?_, hlenm, by rw [hgm, hg1], by rw [hbm, hb1], htm⟩
      simp only [run, step, h1, hrun]

/-! ## Rendering and transmission -/

/-- C1: for every digit 0..9 and every prior content of the 25-pixel buffer,
`update_led_matrix` returns, the buffer still has 25 pixels, and pixel `i` is
(R=0, G=50, B=0) when `numbers[digit][i]` is non-zero and (0,0,0) otherwise. -/
theorem update_led_matrix_renders_digit (digit : Int) (h0 : 0 ≤ digit) (h9 : digit ≤ 9)
    (m : Matrix) (hlen : m.leds.length = 25) :
    ∃ m', update_led_matrix digit m = some m' ∧ m'.leds.length = 25 ∧
      ∀ i, i < 25 → ∃ v, numbers_at digit i = some v ∧
        m'.leds[i]? = some (if v ≠ 0 then { G := 50, R := 0, B := 0 }
                            else { G := 0, R := 0, B := 0 }) :=
  ⟨_, update_led_matrix_eq digit h0 (by omega) m hlen,
    (glyph_leds_shows digit h0 h9).1, (glyph_leds_shows digit h0 h9).2⟩

/-- Witness of C1: digit 7 over a buffer full of white pixels. -/
theorem update_led_matrix_renders_digit_witness :
    (0 : Int) ≤ 7 ∧ (7 : Int) ≤ 9 ∧ white_matrix.leds.length = 25 ∧
    ∃ m', update_led_matrix 7 white_matrix = some m' ∧ m'.leds.length = 25 ∧
      ∀ i, i < 25 → ∃ v, numbers_at 7 i = some v ∧
        m'.leds[i]? = some (if v ≠ 0 then { G := 50, R := 0, B := 0 }
                            else { G := 0, R := 0, B := 0 }) :=
  ⟨by decide, by decide, by decide,
    update_led_matrix_renders_digit 7 (by decide) (by decide) white_matrix (by decide)⟩

/-- C2: for every content of the 25-pixel buffer, `np_write` returns, leaves the
buffer as it is and hands exactly 75 values to the channel before the latch
wait: G0,R0,B0,G1,R1,B1,...,G24,R24,B24. -/
theorem np_write_sends_grb (m : Matrix) (hlen : m.leds.length = 25) :
    ∃ sent : List HwEvent,
      np_write m = some { leds := m.leds,
                          channel := m.channel ++ (sent ++ [HwEvent.sleep_us 100]) } ∧
      sent.length = 75 ∧
      sent = m.leds.flatMap (fun p =>
        [HwEvent.pio_sm_put_blocking p.G, HwEvent.pio_sm_put_blocking p.R,
         HwEvent.pio_sm_put_blocking p.B]) ∧
      ∀ i, i < 25 → ∃ p, m.leds[i]? = some p ∧
        sent[3 * i]? = some (HwEvent.pio_sm_put_blocking p.G) ∧
        sent[3 * i + 1]? = some (HwEvent.pio_sm_put_blocking p.R) ∧
        sent[3 * i + 2]? = some (HwEvent.pio_sm_put_blocking p.B) := by
  refine ⟨m.leds.flatMap grb, np_write_eq m hlen, ?_, rfl, ?_⟩
  · rw [flatMap_grb_length, hlen]
  · intro i hi
    have hi' : i < m.leds.length := by omega
    exact ⟨m.leds[i], List.getElem?_eq_getElem hi',
      flatMap_grb_getElem m.leds i _ (List.getElem?_eq_getElem hi')⟩

/-- Witness of C2: the buffer full of white pixels. -/
theorem np_write_sends_grb_witness :
    white_matrix.leds.length = 25 ∧
    ∃ sent : List HwEvent,
      np_write white_matrix
        = some { leds := white_matrix.leds,
                 channel := white_matrix.channel ++ (sent ++ [HwEvent.sleep_us 100]) } ∧
      sent.length = 75 ∧
      sent = white_matrix.leds.flatMap (fun p =>
        [HwEvent.pio_sm_put_blocking p.G, HwEvent.pio_sm_put_blocking p.R,
         HwEvent.pio_sm_put_blocking p.B]) ∧
      ∀ i, i < 25 → ∃ p, white_matrix.leds[i]? = some p ∧
        sent[3 * i]? = some (HwEvent.pio_sm_put_blocking p.G) ∧
        sent[3 * i + 1]? = some (HwEvent.pio_sm_put_blocking p.R) ∧
        sent[3 * i + 2]? = some (HwEvent.pio_sm_put_blocking p.B) :=
  ⟨by decide, np_write_sends_grb white_matrix (by decide)⟩

/-- C9: for every digit 0..9 and every prior content of the 25-pixel buffer,
a second `update_led_matrix(digit)` right after the first returns and leaves
the pixel buffer that the first one left. -/
theorem update_led_matrix_idempotent (digit : Int) (h0 : 0 ≤ digit) (h9 : digit ≤ 9)
    (m : Matrix) (hlen : m.leds.length = 25) :
    ∃ m1 m2, update_led_matrix digit m = some m1 ∧ update_led_matrix digit m1 = some m2 ∧
      m2.leds = m1.leds :=
  ⟨_, _, update_led_matrix_eq digit h0 (by omega) m hlen,
    update_led_matrix_eq digit h0 (by omega) _ (glyph_leds_length digit), rfl⟩

/-- Witness of C9: digit 4 over a buffer full of white pixels. -/
theorem update_led_matrix_idempotent_witness :
    (0 : Int) ≤ 4 ∧ (4 : Int) ≤ 9 ∧ white_matrix.leds.length = 25 ∧
    ∃ m1 m2, update_led_matrix 4 white_matrix = some m1 ∧
      update_led_matrix 4 m1 = some m2 ∧ m2.leds = m1.leds :=
  ⟨by decide, by decide, by decide,
    update_led_matrix_idempotent 4 (by decide) (by decide) white_matrix (by decide)⟩

/-! ## The main loop -/

/-- C7: for every byte `c` read in one iteration of the main loop (over a
25-pixel buffer) the iteration returns and `last_char` becomes `c`; when `c` is
in '0'..'9' the matrix is the result of `update_led_matrix(c - '0')`, the buffer
shows that digit (for '3' it is the glyph of 3) and what was added to the
channel is what one `np_write` of that buffer sends; when `c` is outside
'0'..'9' nothing but `last_char` changes. -/
theorem main_loop_byte (c : Nat) (s : State) (hlen : s.matrix.leds.length = 25) :
    ∃ s', main_loop_iteration true (some c) s = some s' ∧ s'.last_char = c ∧
      (48 ≤ c ∧ c ≤ 57 →
        update_led_matrix ((c : Int) - 48) s.matrix = some s'.matrix ∧
        shows_digit ((c : Int) - 48) s'.matrix.leds ∧
        np_write { leds := s'.matrix.leds, channel := s.matrix.channel } = some s'.matrix ∧
        (s'.matrix.channel.drop s.matrix.channel.length).count (HwEvent.sleep_us 100) = 1 ∧
        (c = 51 → s'.matrix.leds =
          [⟨50, 0, 0⟩, ⟨50, 0, 0⟩, ⟨50, 0, 0⟩, ⟨50, 0, 0⟩, ⟨50, 0, 0⟩,
           ⟨0, 0, 0⟩, ⟨0, 0, 0⟩, ⟨0, 0, 0⟩, ⟨0, 0, 0⟩, ⟨50, 0, 0⟩,
           ⟨50, 0, 0⟩, ⟨50, 0, 0⟩, ⟨50, 0, 0⟩, ⟨50, 0, 0⟩, ⟨50, 0, 0⟩,
           ⟨0, 0, 0⟩, ⟨0, 0, 0⟩, ⟨0, 0, 0⟩, ⟨0, 0, 0⟩, ⟨50, 0, 0⟩,
           ⟨50, 0, 0⟩, ⟨50, 0, 0⟩, ⟨50, 0, 0⟩, ⟨50, 0, 0⟩, ⟨50, 0, 0⟩])) ∧
      (¬ (48 ≤ c ∧ c ≤ 57) → s' = { s with last_char := c }) := by
  by_cases hc : 48 ≤ c ∧ c ≤ 57
  · refine ⟨_, main_loop_digit c hc s hlen, rfl, ?_, fun h => absurd hc h⟩
    intro _
    have hd0 : (0 : Int) ≤ (c : Int) - 48 := by omega
    have hd9 : (c : Int) - 48 ≤ 9 := by omega
    refine ⟨update_led_matrix_eq _ hd0 (by omega) s.matrix hlen, glyph_leds_shows _ hd0 hd9,
      np_write_eq _ (glyph_leds_length _), ?_, ?_⟩
    · have hsl : ∀ l : List pixel_t, (l.flatMap grb).count (HwEvent.sleep_us 100) = 0 := by
        intro l
        induction l with
        | nil => rfl
        | cons p ps ih => simp [List.flatMap_cons, List.count_append, ih, grb, List.count_cons]
      simp [frame_events, List.count_append, hsl]
    · intro h51
      subst h51
      show glyph_leds (((51 : Nat) : Int) - 48) = _
      decide
  · exact ⟨_, main_loop_other c hc s, rfl, fun h => absurd h hc, fun _ => rfl⟩

/-- Witness of C7: the byte '3' arrives in the initial state. -/
theorem main_loop_byte_witness :
    initial_state.matrix.leds.length = 25 ∧
    ∃ s', main_loop_iteration true (some 51) initial_state = some s' ∧ s'.last_char = 51 ∧
      (48 ≤ 51 ∧ 51 ≤ 57 →
        update_led_matrix (((51 : Nat) : Int) - 48) initial_state.matrix = some s'.matrix ∧
        shows_digit (((51 : Nat) : Int) - 48) s'.matrix.leds ∧
        np_write { leds := s'.matrix.leds, channel := initial_state.matrix.channel }
          = some s'.matrix ∧
        (s'.matrix.channel.drop initial_state.matrix.channel.length).count
          (HwEvent.sleep_us 100) = 1 ∧
        (51 = 51 → s'.matrix.leds =
          [⟨50, 0, 0⟩, ⟨50, 0, 0⟩, ⟨50, 0, 0⟩, ⟨50, 0, 0⟩, ⟨50, 0, 0⟩,
           ⟨0, 0, 0⟩, ⟨0, 0, 0⟩, ⟨0, 0, 0⟩, ⟨0, 0, 0⟩, ⟨50, 0, 0⟩,
           ⟨50, 0, 0⟩, ⟨50, 0, 0⟩, ⟨50, 0, 0⟩, ⟨50, 0, 0⟩, ⟨50, 0, 0⟩,
           ⟨0, 0, 0⟩, ⟨0, 0, 0⟩, ⟨0, 0, 0⟩, ⟨0, 0, 0⟩, ⟨50, 0, 0⟩,
           ⟨50, 0, 0⟩, ⟨50, 0, 0⟩, ⟨50, 0, 0⟩, ⟨50, 0, 0⟩, ⟨50, 0, 0⟩])) ∧
      (¬ (48 ≤ 51 ∧ 51 ≤ 57) → s' = { initial_state with last_char := 51 }) :=
  ⟨by decide, main_loop_byte 51 initial_state (by decide)⟩

/-- C8: the program starts, and after any sequence of main-loop iterations
(any bytes) and button interrupts it is in a state whose channel record is a
sequence of transmitted frames, each either all 25 pixels (0,0,0) or exactly
the glyph of one digit 0..9 in the drawing colour over (0,0,0). -/
theorem no_dirty_residue (inputs : List Input) :
    ∃ s0 s, startup = some s0 ∧ run inputs s0 = some s ∧
      ∃ frames : List (List pixel_t),
        s.matrix.channel = frames.flatMap frame_events ∧ ∀ f ∈ frames, clean_frame f := by
  obtain ⟨s, hs, _, hclean⟩ := run_keeps_clean inputs _ (by simp : ({ initial_state with
      matrix := { leds := List.replicate 25 { G := 0, R := 0, B := 0 },
                  channel := frame_events (List.replicate 25 { G := 0, R := 0, B := 0 }) } }
        : State).matrix.leds.length = 25)
    ⟨[List.replicate 25 { G := 0, R := 0, B := 0 }], by simp, by
      intro f hf
      exact Or.inl (by simpa using hf)⟩
  exact ⟨_, s, startup_eq, hs, hclean⟩

/-- C10: over a 25-pixel buffer every iteration of the main loop returns without
an access outside `numbers` or `leds` and keeps 25 pixels; for every byte read
either the matrix is left alone or `update_led_matrix` is run with a digit in
0..9; `np_clear`, `np_write` and `update_led_matrix` on a digit 0..9 return
with 25 pixels, while a digit outside 0..9 would read outside the table. -/
theorem indices_in_range (usb_connected : Bool) (rx : Option Nat) (s : State)
    (hlen : s.matrix.leds.length = 25) :
    (∃ s', main_loop_iteration usb_connected rx s = some s' ∧ s'.matrix.leds.length = 25) ∧
    (∀ c, rx = some c →
      (main_loop_iteration usb_connected rx s).map (fun s' => s'.matrix) = some s.matrix ∨
      (0 ≤ (c : Int) - 48 ∧ (c : Int) - 48 ≤ 9 ∧
        (main_loop_iteration usb_connected rx s).map (fun s' => s'.matrix)
          = update_led_matrix ((c : Int) - 48) s.matrix)) ∧
    (∃ m', np_clear s.matrix = some m' ∧ m'.leds.length = 25) ∧
    (∃ m', np_write s.matrix = some m' ∧ m'.leds.length = 25) ∧
    (∀ digit : Int, 0 ≤ digit → digit ≤ 9 →
      ∃ m', update_led_matrix digit s.matrix = some m' ∧ m'.leds.length = 25) ∧
    (∀ digit : Int, digit < 0 ∨ 9 < digit → update_led_matrix digit s.matrix = none) := by
  refine ⟨?_, ?_, ⟨_, np_clear_eq _ hlen, by simp [LED_COUNT]⟩, ⟨_, np_write_eq _ hlen, hlen⟩,
    fun d h0 h9 => ⟨_, update_led_matrix_eq d h0 (by omega) _ hlen, glyph_leds_length d⟩,
    fun d hd => update_led_matrix_none d hd _ hlen⟩
  · cases usb_connected with
    | false => exact ⟨s, rfl, hlen⟩
    | true =>
      cases rx with
      | none => exact ⟨s, rfl, hlen⟩
      | some c =>
        by_cases hc : 48 ≤ c ∧ c ≤ 57
        · exact ⟨_, main_loop_digit c hc s hlen, glyph_leds_length _⟩
        · exact ⟨_, main_loop_other c hc s, hlen⟩
  · intro c hrx
    subst hrx
    cases usb_connected with
    | false => exact Or.inl rfl
    | true =>
      by_cases hc : 48 ≤ c ∧ c ≤ 57
      · refine Or.inr ⟨by omega, by omega, ?_⟩
        rw [main_loop_digit c hc s hlen,
          update_led_matrix_eq ((c : Int) - 48) (by omega) (by omega) s.matrix hlen]
        rfl
      · rw [main_loop_other c hc s]
        exact Or.inl rfl

/-- Witness of C10: the byte '9' arrives over a buffer full of white pixels. -/
theorem indices_in_range_witness :
    white_state.matrix.leds.length = 25 ∧
    (∃ s', main_loop_iteration true (some 57) white_state = some s' ∧
      s'.matrix.leds.length = 25) :=
  ⟨by decide, (indices_in_range true (some 57) white_state (by decide)).1⟩

/-! ## Debounce -/

/-- Counterexample to C3: from the initial state a falling edge on button B at
400 ms flips B's toggle, but after a falling edge on button A at 300 ms the
same edge on B at 400 ms does not flip it. -/
theorem debounce_not_per_button :
    (button_irq BUTTON_B 4 400 initial_state).led_b_estado ≠ initial_state.led_b_estado ∧
    (button_irq BUTTON_B 4 400 (button_irq BUTTON_A 4 300 initial_state)).led_b_estado
      = (button_irq BUTTON_A 4 300 initial_state).led_b_estado := by
  decide

/-- C3 as amended: the two buttons share one stored press time. An event on
button A never changes B's toggle; when that event is discarded, an event on B
afterwards does what it would have done without it; when it is accepted at time
`tA`, an event on B at time `T` afterwards flips B's toggle exactly when
`T - tA` (modulo 2^32) is at least 200; in every state an event on B at `T`
flips B's toggle exactly when `T - last_press_time` (modulo 2^32) is at least
200. -/
theorem debounce_shared_between_buttons (s : State) (evA evB tA T : Nat) :
    (button_irq BUTTON_A evA tA s).led_b_estado = s.led_b_estado ∧
    (u32_sub tA s.last_press_time < 200 →
      button_irq BUTTON_B evB T (button_irq BUTTON_A evA tA s) = button_irq BUTTON_B evB T s) ∧
    (200 ≤ u32_sub tA s.last_press_time →
      ((button_irq BUTTON_B evB T (button_irq BUTTON_A evA tA s)).led_b_estado
          ≠ (button_irq BUTTON_A evA tA s).led_b_estado
        ↔ 200 ≤ u32_sub T tA)) ∧
    ((button_irq BUTTON_B evB T s).led_b_estado ≠ s.led_b_estado
        ↔ 200 ≤ u32_sub T s.last_press_time) := by
  refine ⟨button_irq_A_keeps_B evA tA s, ?_, ?_, button_irq_flipped_B evB T s⟩
  · intro h
    rw [button_irq_rejected _ _ _ _ h]
  · intro h
    rw [button_irq_flipped_B, button_irq_accepted_time _ _ _ _ h]

/-- Counterexample to C4: from the initial state, falling edges on button A at
0 ms and 250 ms are 250 ms apart, yet the first is discarded and only the
second flips the toggle, which ends different from its original value. Also,
with an accepted edge on button B at 1210 ms between edges on button A at
1000 ms and 1250 ms, the second edge on A is discarded: A's toggle flips once. -/
theorem spaced_presses_one_flip :
    200 ≤ 250 - 0 ∧
    flips initial_state.led_g_estado (button_irq BUTTON_A 4 0 initial_state).led_g_estado
      + flips (button_irq BUTTON_A 4 0 initial_state).led_g_estado
          (button_irq BUTTON_A 4 250 (button_irq BUTTON_A 4 0 initial_state)).led_g_estado = 1 ∧
    (button_irq BUTTON_A 4 250 (button_irq BUTTON_A 4 0 initial_state)).led_g_estado
      ≠ initial_state.led_g_estado ∧
    200 ≤ 1250 - 1000 ∧
    200 ≤ u32_sub 1000 initial_state.last_press_time ∧
    (button_irq BUTTON_A 4 1250
        (button_irq BUTTON_B 4 1210 (button_irq BUTTON_A 4 1000 initial_state))).led_g_estado
      ≠ initial_state.led_g_estado := by
  decide

/-- C4 as amended: for button A and for button B, take a falling-edge event at
`T1` that is itself accepted (`T1` is at least 200 ms, modulo 2^32, after the
stored press time), then any main-loop iterations and interrupts on any pin of
which none is accepted (each interrupt comes less than 200 ms, modulo 2^32,
after `T1`), then a falling-edge event on the same button at `T2` with
`T2 - T1 >= 200` (the difference of the two `uint32_t` readings, which is
`T2 - T1` when `T1 <= T2 < 2^32`). The program reaches the second event, the
toggle of that button flips at the first event, not in between, and again at
the second event, and ends at the value it had before the first. -/
theorem spaced_presses_flip_twice (s : State) (ev1 ev2 T1 T2 : Nat) (mid : List Input)
    (hlen : s.matrix.leds.length = 25)
    (hacc : 200 ≤ u32_sub T1 s.last_press_time)
    (hmid : ∀ gpio ev t, Input.irq gpio ev t ∈ mid → u32_sub t T1 < 200)
    (hgap : 200 ≤ u32_sub T2 T1) :
    (∃ sm, run mid (button_irq BUTTON_A ev1 T1 s) = some sm ∧
      flips s.led_g_estado (button_irq BUTTON_A ev1 T1 s).led_g_estado = 1 ∧
      flips (button_irq BUTTON_A ev1 T1 s).led_g_estado sm.led_g_estado = 0 ∧
      flips sm.led_g_estado (button_irq BUTTON_A ev2 T2 sm).led_g_estado = 1 ∧
      (button_irq BUTTON_A ev2 T2 sm).led_g_estado = s.led_g_estado) ∧
    (∃ sm, run mid (button_irq BUTTON_B ev1 T1 s) = some sm ∧
      flips s.led_b_estado (button_irq BUTTON_B ev1 T1 s).led_b_estado = 1 ∧
      flips (button_irq BUTTON_B ev1 T1 s).led_b_estado sm.led_b_estado = 0 ∧
      flips sm.led_b_estado (button_irq BUTTON_B ev2 T2 sm).led_b_estado = 1 ∧
      (button_irq BUTTON_B ev2 T2 sm).led_b_estado = s.led_b_estado) ∧
    (T1 ≤ T2 → T2 < 4294967296 → u32_sub T2 T1 = T2 - T1) := by
  refine ⟨?_, ?_, fun hle hT2 => u32_sub_of_le T2 T1 hle hT2⟩
  · obtain ⟨sm, hrun, _, hg, _, ht⟩ := run_without_accepted_irq mid T1 hmid
      (button_irq BUTTON_A ev1 T1 s) (by rw [button_irq_matrix]; exact hlen)
      (button_irq_accepted_time _ _ _ _ hacc)
    have h1 : (button_irq BUTTON_A ev1 T1 s).led_g_estado = !s.led_g_estado := by
      rw [button_irq_accepted_A ev1 T1 s hacc]
    have h2 : (button_irq BUTTON_A ev2 T2 sm).led_g_estado = !sm.led_g_estado := by
      rw [button_irq_accepted_A ev2 T2 sm (by rw [ht]; exact hgap)]
    refine ⟨sm, hrun, ?_, ?_, ?_, ?_⟩
    · rw [h1]; exact flips_not _
    · rw [hg]; exact flips_self _
    · rw [h2]; exact flips_not _
    · rw [h2, hg, h1]; exact Bool.not_not _
  · obtain ⟨sm, hrun, _, _, hb, ht⟩ := run_without_accepted_irq mid T1 hmid
      (button_irq BUTTON_B ev1 T1 s) (by rw [button_irq_matrix]; exact hlen)
      (button_irq_accepted_time _ _ _ _ hacc)
    have h1 : (button_irq BUTTON_B ev1 T1 s).led_b_estado = !s.led_b_estado := by
      rw [button_irq_accepted_B ev1 T1 s hacc]
    have h2 : (button_irq BUTTON_B ev2 T2 sm).led_b_estado = !sm.led_b_estado := by
      rw [button_irq_accepted_B ev2 T2 sm (by rw [ht]; exact hgap)]
    refine ⟨sm, hrun, ?_, ?_, ?_, ?_⟩
    · rw [h1]; exact flips_not _
    · rw [hb]; exact flips_self _
    · rw [h2]; exact flips_not _
    · rw [h2, hb, h1]; exact Bool.not_not _

/-- Witness of C4 as amended: from the initial state, edges at 1000 ms and
1250 ms; in between the byte '3' is rendered and an edge on the other button
at 1100 ms is discarded. -/
theorem spaced_presses_flip_twice_witness :
    initial_state.matrix.leds.length = 25 ∧
    200 ≤ u32_sub 1000 initial_state.last_press_time ∧
    (∀ gpio ev t, Input.irq gpio ev t ∈ quiet_inputs → u32_sub t 1000 < 200) ∧
    200 ≤ u32_sub 1250 1000 ∧
    ((∃ sm, run quiet_inputs (button_irq BUTTON_A 4 1000 initial_state) = some sm ∧
      flips initial_state.led_g_estado
        (button_irq BUTTON_A 4 1000 initial_state).led_g_estado = 1 ∧
      flips (button_irq BUTTON_A 4 1000 initial_state).led_g_estado sm.led_g_estado = 0 ∧
      flips sm.led_g_estado (button_irq BUTTON_A 4 1250 sm).led_g_estado = 1 ∧
      (button_irq BUTTON_A 4 1250 sm).led_g_estado = initial_state.led_g_estado) ∧
    (∃ sm, run quiet_inputs (button_irq BUTTON_B 4 1000 initial_state) = some sm ∧
      flips initial_state.led_b_estado
        (button_irq BUTTON_B 4 1000 initial_state).led_b_estado = 1 ∧
      flips (button_irq BUTTON_B 4 1000 initial_state).led_b_estado sm.led_b_estado = 0 ∧
      flips sm.led_b_estado (button_irq BUTTON_B 4 1250 sm).led_b_estado = 1 ∧
      (button_irq BUTTON_B 4 1250 sm).led_b_estado = initial_state.led_b_estado) ∧
    (1000 ≤ 1250 → 1250 < 4294967296 → u32_sub 1250 1000 = 1250 - 1000)) :=
  have hq : ∀ gpio ev t, Input.irq gpio ev t ∈ quiet_inputs → u32_sub t 1000 < 200 := by
    intro gpio ev t h
    simp only [quiet_inputs, List.mem_cons, Input.irq.injEq, List.mem_singleton,
      List.mem_nil_iff, or_false, false_or, reduceCtorEq] at h
    obtain ⟨_, _, ht⟩ := h
    subst ht
    decide
  ⟨by decide, by decide, hq, by decide,
    spaced_presses_flip_twice initial_state 4 4 1000 1250 quiet_inputs
      (by decide) (by decide) hq (by decide)⟩

/-- C5: for every state, every pin and two falling-edge events at `T1 <= T2`
with `T2 - T1 < 200`, each toggle flips at most once across the two events; and
an event at `T2`, less than 200 ms after the stored time `T1` of the last
accepted event, returns the state unchanged (toggles, stored time, pins). -/
theorem close_presses_flip_at_most_once (s : State) (gpio ev1 ev2 T1 T2 : Nat)
    (hle : T1 ≤ T2) (hgap : T2 - T1 < 200) (hT2 : T2 < 4294967296) :
    flips s.led_g_estado (button_irq gpio ev1 T1 s).led_g_estado
      + flips (button_irq gpio ev1 T1 s).led_g_estado
          (button_irq gpio ev2 T2 (button_irq gpio ev1 T1 s)).led_g_estado ≤ 1 ∧
    flips s.led_b_estado (button_irq gpio ev1 T1 s).led_b_estado
      + flips (button_irq gpio ev1 T1 s).led_b_estado
          (button_irq gpio ev2 T2 (button_irq gpio ev1 T1 s)).led_b_estado ≤ 1 ∧
    button_irq gpio ev2 T2 { s with last_press_time := T1 }
      = { s with last_press_time := T1 } := by
  have h2 : u32_sub T2 T1 < 200 := by rw [u32_sub_of_le T2 T1 hle hT2]; exact hgap
  refine ⟨?_, ?_, button_irq_rejected _ _ _ _ h2⟩
  · by_cases h : u32_sub T1 s.last_press_time < 200
    · rw [button_irq_rejected gpio ev1 T1 s h, flips_self]
      have := flips_le_one s.led_g_estado (button_irq gpio ev2 T2 s).led_g_estado
      omega
    · rw [button_irq_rejected gpio ev2 T2 _
        (by rw [button_irq_accepted_time _ _ _ _ (by omega)]; exact h2), flips_self]
      have := flips_le_one s.led_g_estado (button_irq gpio ev1 T1 s).led_g_estado
      omega
  · by_cases h : u32_sub T1 s.last_press_time < 200
    · rw [button_irq_rejected gpio ev1 T1 s h, flips_self]
      have := flips_le_one s.led_b_estado (button_irq gpio ev2 T2 s).led_b_estado
      omega
    · rw [button_irq_rejected gpio ev2 T2 _
        (by rw [button_irq_accepted_time _ _ _ _ (by omega)]; exact h2), flips_self]
      have := flips_le_one s.led_b_estado (button_irq gpio ev1 T1 s).led_b_estado
      omega

/-- Witness of C5: from the initial state, edges on button A at 1000 ms and
1150 ms. -/
theorem close_presses_flip_at_most_once_witness :
    1000 ≤ 1150 ∧ 1150 - 1000 < 200 ∧ 1150 < 4294967296 ∧
    (flips initial_state.led_g_estado (button_irq BUTTON_A 4 1000 initial_state).led_g_estado
      + flips (button_irq BUTTON_A 4 1000 initial_state).led_g_estado
          (button_irq BUTTON_A 4 1150 (button_irq BUTTON_A 4 1000 initial_state)).led_g_estado ≤ 1 ∧
    flips initial_state.led_b_estado (button_irq BUTTON_A 4 1000 initial_state).led_b_estado
      + flips (button_irq BUTTON_A 4 1000 initial_state).led_b_estado
          (button_irq BUTTON_A 4 1150 (button_irq BUTTON_A 4 1000 initial_state)).led_b_estado ≤ 1 ∧
    button_irq BUTTON_A 4 1150 { initial_state with last_press_time := 1000 }
      = { initial_state with last_press_time := 1000 }) :=
  ⟨by decide, by decide, by decide,
    close_presses_flip_at_most_once initial_state BUTTON_A 4 4 1000 1150
      (by decide) (by decide) (by decide)⟩

/-- Counterexample to C6: from the initial state, falling edges on button A at
0 ms and 150 ms are both discarded; no flip is recorded and `led_g_estado`
ends false. -/
theorem boot_presses_discarded :
    button_irq BUTTON_A 4 150 (button_irq BUTTON_A 4 0 initial_state) = initial_state ∧
    (button_irq BUTTON_A 4 150 (button_irq BUTTON_A 4 0 initial_state)).led_g_estado = false := by
  decide

/-- C6 as amended: in a state with `led_g_estado` false and stored press time 0,
falling edges on button A at 0 ms and 150 ms leave the state unchanged
(`led_g_estado` stays false); when the first edge comes at `T >= 200` ms and the
second 150 ms later, exactly one flip is recorded, by the first edge, and
`led_g_estado` ends true. -/
theorem first_press_needs_200ms (s : State) (ev1 ev2 : Nat) (hg : s.led_g_estado = false)
    (hl : s.last_press_time = 0) :
    button_irq BUTTON_A ev2 150 (button_irq BUTTON_A ev1 0 s) = s ∧
    ∀ T, 200 ≤ T → T + 150 < 4294967296 →
      (button_irq BUTTON_A ev1 T s).led_g_estado = true ∧
      button_irq BUTTON_A ev2 (T + 150) (button_irq BUTTON_A ev1 T s)
        = button_irq BUTTON_A ev1 T s ∧
      flips s.led_g_estado (button_irq BUTTON_A ev1 T s).led_g_estado
        + flips (button_irq BUTTON_A ev1 T s).led_g_estado
            (button_irq BUTTON_A ev2 (T + 150) (button_irq BUTTON_A ev1 T s)).led_g_estado = 1 ∧
      (button_irq BUTTON_A ev2 (T + 150) (button_irq BUTTON_A ev1 T s)).led_g_estado = true := by
  constructor
  · have h0 : u32_sub 0 s.last_press_time < 200 := by rw [hl]; decide
    rw [button_irq_rejected _ _ _ _ h0]
    exact button_irq_rejected _ _ _ _ (by rw [hl]; decide)
  · intro T hT hT2
    have hacc : 200 ≤ u32_sub T s.last_press_time := by
      rw [hl, u32_sub_of_le T 0 (by omega) (by omega)]; omega
    have hrej : u32_sub (T + 150) (button_irq BUTTON_A ev1 T s).last_press_time < 200 := by
      rw [button_irq_accepted_time _ _ _ _ hacc, u32_sub_of_le (T + 150) T (by omega) hT2]
      omega
    rw [button_irq_rejected _ _ _ _ hrej, button_irq_accepted_A ev1 T s hacc]
    simp [hg, flips]

/-- Witness of C6 as amended: the initial state, first edge at 1000 ms. -/
theorem first_press_needs_200ms_witness :
    initial_state.led_g_estado = false ∧ initial_state.last_press_time = 0 ∧
    (button_irq BUTTON_A 4 (1000 + 150) (button_irq BUTTON_A 4 1000 initial_state)).led_g_estado
      = true :=
  ⟨by decide, by decide,
    ((first_press_needs_200ms initial_state 4 4 (by decide) (by decide)).2
      1000 (by decide) (by decide)).2.2.2⟩

end DisplayC
